import Mathlib

/-!
Verification of the `product-scraperjs` repository core logic.

The JavaScript sources are shallowly embedded as Lean functions:

* `src/lib/search.js` — `getOptimalForSearchSubstring` (adaptive query
  narrowing via binary search over prefix lengths) and `searchProduct`
  (product resolution).  The external `hasSearchResult` probe (a network
  fetch followed by a selector test) is modelled as an oracle
  `has : List Char → Bool`; JS strings are modelled as `List Char` and
  `query.substring(0, k)` as `List.take k`.
* `src/lib/constructor.js` — `iterateOverPagination`.  The per-page
  fetch+extract callback is modelled as `pages : Nat → Option (List α)`
  (`none` = the callback threw).  The unbounded `while` loop is modelled
  with an explicit fuel parameter; `IterOutcome.fuelOut` records a run
  that is still looping after the given fuel, so non-termination is
  `∀ fuel, … = .fuelOut …`.
* `src/lib/fuse-product.js` — `normalize`, `assessRelevance`,
  `fuseSearchProduct`.  The external Fuse.js index is modelled as an
  oracle `engine : Rat → List (List Char) → List Char → List FuseHit`
  whose first argument is the `fieldNormWeight` option; the module-level
  mutable `FUSE_DEFAULT_OPTIONS.fieldNormWeight` is threaded explicitly
  as a state value (`fnw` in, returned state out).  JS float scores are
  modelled as `Rat`.
* `src/lib/filter.js` — `filterProductCardsFromPage`.  The extraction
  results (`extractProductImageUrlsFromList`, …) are passed in as lists;
  configuration strings default to `""` in the constructor and the JS
  truthiness tests `selector && placeholder` become `≠ ""` tests.
-/

namespace Scraper

/-! ## Adaptive search narrowing (src/lib/search.js) -/

/--
Loop body of `getOptimalForSearchSubstring` (search.js lines 51-57):

    while (right - left > 1) {
        middle = Math.floor((left + right) / 2);
        substr = query.substring(0, middle + 1);
        hasResult = await this.hasSearchResult(substr);
        hasResult ? left = middle : right = middle;
    }

The loop always terminates because `right - left` strictly decreases; we
express it with a fuel parameter (structural recursion) and prove below
(`narrowLoop_fuel_congr`) that any fuel at least `right - left` gives the
same answer, so the fuelled function is exactly the JS loop.
-/
def narrowLoop (has : List Char → Bool) (query : List Char) :
    Nat → Nat → Nat → Nat
  | 0, left, _ => left
  | fuel + 1, left, right =>
    if 1 < right - left then
      if has (query.take ((left + right) / 2 + 1)) then
        narrowLoop has query fuel ((left + right) / 2) right
      else
        narrowLoop has query fuel left ((left + right) / 2)
    else left

/--
`getOptimalForSearchSubstring` (search.js lines 40-60): if the full query
has results it is returned unchanged, otherwise the binary search runs
with `left = 1`, `right = query.length` and the prefix of length
`left + 1` is returned.  The initial interval width is `query.length - 1`,
so `query.length` is always enough fuel.
-/
def getOptimalForSearchSubstring (has : List Char → Bool) (query : List Char) :
    List Char :=
  if has query then query
  else query.take (narrowLoop has query query.length 1 query.length + 1)

theorem narrowLoop_fuel_congr (has : List Char → Bool) (query : List Char) :
    ∀ fuel₁ fuel₂ left right, right - left ≤ fuel₁ → right - left ≤ fuel₂ →
      narrowLoop has query fuel₁ left right = narrowLoop has query fuel₂ left right := by
  intro fuel₁
  induction fuel₁ with
  | zero =>
    intro fuel₂ left right h1 h2
    cases fuel₂ with
    | zero => rfl
    | succ m =>
      simp only [narrowLoop]
      rw [if_neg (by omega)]
  | succ n ih =>
    intro fuel₂ left right h1 h2
    cases fuel₂ with
    | zero =>
      simp only [narrowLoop]
      rw [if_neg (by omega)]
    | succ m =>
      simp only [narrowLoop]
      by_cases hc : 1 < right - left
      · rw [if_pos hc, if_pos hc]
        by_cases hr : has (query.take ((left + right) / 2 + 1)) = true
        · rw [if_pos hr, if_pos hr]
          exact ih m ((left + right) / 2) right (by omega) (by omega)
        · rw [if_neg hr, if_neg hr]
          exact ih m left ((left + right) / 2) (by omega) (by omega)
      · rw [if_neg hc, if_neg hc]

/--
Loop invariant of the narrowing binary search.  If the oracle is monotone
with cut `L` (prefixes of length `≤ L` have results, longer ones do not)
and `left + 1 ≤ L ≤ right ≤ query.length`, the loop ends with
`left = L - 1`.
-/
theorem narrowLoop_eq_cut (has : List Char → Bool) (query : List Char) (L : Nat)
    (hm : ∀ k, 1 ≤ k → k ≤ query.length →
      (has (query.take k) = true ↔ k ≤ L)) :
    ∀ fuel left right, right - left ≤ fuel → left + 1 ≤ L → L ≤ right →
      right ≤ query.length → narrowLoop has query fuel left right = L - 1 := by
  intro fuel
  induction fuel with
  | zero =>
    intro left right hfuel h1 h2 h3
    simp only [narrowLoop]
    omega
  | succ n ih =>
    intro left right hfuel h1 h2 h3
    simp only [narrowLoop]
    by_cases hc : 1 < right - left
    · rw [if_pos hc]
      have hk1 : 1 ≤ (left + right) / 2 + 1 := by omega
      have hk2 : (left + right) / 2 + 1 ≤ query.length := by omega
      by_cases hres : (left + right) / 2 + 1 ≤ L
      · rw [if_pos ((hm _ hk1 hk2).mpr hres)]
        exact ih ((left + right) / 2) right (by omega) (by omega) h2 h3
      · have hfalse : ¬ has (query.take ((left + right) / 2 + 1)) = true :=
          fun h => hres ((hm _ hk1 hk2).mp h)
        rw [if_neg hfalse]
        exact ih left ((left + right) / 2) (by omega) h1 (by omega) (by omega)
    · rw [if_neg hc]
      omega

/--
C2: binary-search narrowing finds the largest working prefix.  If the full
query yields no results and there is a cut length `L` with
`2 ≤ L < query.length` such that exactly the prefixes of length `≤ L`
yield non-empty results, then `getOptimalForSearchSubstring` returns the
prefix of length `L`; and if the full query itself yields results it is
returned unchanged.
-/
theorem c2_narrowing (has : List Char → Bool) (query : List Char) (L : Nat) :
    (has query = false → 2 ≤ L → L < query.length →
      (∀ k, 1 ≤ k → k ≤ query.length → (has (query.take k) = true ↔ k ≤ L)) →
      getOptimalForSearchSubstring has query = query.take L) ∧
    (has query = true → getOptimalForSearchSubstring has query = query) := by
  constructor
  · intro hfull hL2 hLn hm
    unfold getOptimalForSearchSubstring
    rw [if_neg (by simp [hfull])]
    rw [narrowLoop_eq_cut has query L hm query.length 1 query.length
        (by omega) (by omega) (by omega) (le_refl _)]
    congr 1
    omega
  · intro hfull
    unfold getOptimalForSearchSubstring
    rw [if_pos hfull]

/-- Query used in the concrete narrowing scenarios: "abcdef". -/
def qAbcdef : List Char := ['a', 'b', 'c', 'd', 'e', 'f']

/--
Oracle realizing the scenario of C1: a query string has search results
exactly when its length is at least 4 (so, among prefixes of "abcdef",
exactly those of length ≥ 4 yield non-empty results).
-/
def hasLenGe4 : List Char → Bool := fun s => decide (4 ≤ s.length)

/--
Oracle for the proper-prefix reading of C1's scenario: only the prefixes
of length 4 and 5 yield results, and the full query "abcdef" yields none.
-/
def hasLen45 : List Char → Bool := fun s => decide (4 ≤ s.length ∧ s.length ≤ 5)

/--
C1 counterexample: with exactly the prefixes of length ≥ 4 of "abcdef"
yielding results, `getOptimalForSearchSubstring` does not return the
length-4 prefix "abcd" (it returns the full query "abcdef", which itself
yields results).
-/
theorem c1_counterexample :
    getOptimalForSearchSubstring hasLenGe4 qAbcdef ≠ ['a', 'b', 'c', 'd'] := by
  decide

/--
C1 amended: narrowing returns the longest successful prefix, not the
shortest.  For "abcdef" with exactly the prefixes of length ≥ 4 yielding
results, the full query itself yields results and is returned unchanged;
if instead only the proper prefixes of length 4 and 5 yield results (the
full query yields none), the length-5 prefix "abcde" is returned.
-/
theorem c1_amended :
    getOptimalForSearchSubstring hasLenGe4 qAbcdef = qAbcdef ∧
    getOptimalForSearchSubstring hasLen45 qAbcdef = ['a', 'b', 'c', 'd', 'e'] := by
  decide

/--
Witness for C2 at a concrete input: for the query "abcdef" and the oracle
"results exactly for prefixes of length ≤ 2" (cut `L = 2`), narrowing
returns the length-2 prefix; and a constantly-true oracle returns the
query unchanged.
-/
theorem c2_narrowing_witness :
    getOptimalForSearchSubstring (fun s => decide (s.length ≤ 2)) qAbcdef = ['a', 'b'] ∧
    getOptimalForSearchSubstring (fun _ => true) qAbcdef = qAbcdef := by
  constructor
  · have h := (c2_narrowing (fun s => decide (s.length ≤ 2)) qAbcdef 2).1
      (by decide) (by decide) (by decide)
      (by
        intro k h1 h2
        simp only [List.length_take, decide_eq_true_eq]
        have : qAbcdef.length = 6 := by decide
        omega)
    rw [h]
    decide
  · exact (c2_narrowing (fun _ => true) qAbcdef 0).2 rfl

/-! ## Pagination engine (src/lib/constructor.js, `iterateOverPagination`) -/

/--
Outcome of running the pagination loop with a given amount of fuel.
`ok` is a normal return of the accumulator, `err` is the exception
propagated when the callback fails on the very first page, and `fuelOut`
records a run that is still looping after the given fuel (carrying the
accumulator and the next page number), so genuine non-termination of the
JS `while` loop is `∀ fuel, … = .fuelOut …`.
-/
inductive IterOutcome (α : Type) where
  | ok (acc : List α)
  | err
  | fuelOut (acc : List α) (pageNum : Nat)
deriving DecidableEq, Repr

/-- Loop condition (constructor.js line 223): `last == undefined ? true : pageNum <= last`. -/
def contPage (last? : Option Nat) (pageNum : Nat) : Bool :=
  match last? with
  | none => true
  | some l => decide (pageNum ≤ l)

/--
Duplicate-page test (constructor.js line 232):
`acc.find(val => _.isEqual(val, data[0]))`.  When `data` is empty,
`data[0]` is `undefined` and lodash `isEqual` matches no accumulated
element, so the test is false.  Extracted elements are JS objects (hence
truthy), so the JS `if` on the found element is membership of the first
element of `data` in `acc` (deep equality = structural equality on the
embedded record type).
-/
def dupHit [DecidableEq α] (acc data : List α) : Bool :=
  match data.head? with
  | none => false
  | some x => decide (x ∈ acc)

/--
The `while` loop of `iterateOverPagination` (constructor.js lines
223-241).  `pages pageNum` is the result of `callback($)` on the fetched
page (`none` = the callback threw); fetch errors themselves propagate
outside the `try` and are not part of the claims modelled here.
-/
def iterGo [DecidableEq α] (pages : Nat → Option (List α)) (last? : Option Nat)
    (startPage : Nat) : Nat → Nat → List α → IterOutcome α
  | 0, pageNum, acc => .fuelOut acc pageNum
  | fuel + 1, pageNum, acc =>
    if contPage last? pageNum then
      match pages pageNum with
      | none => if pageNum = startPage then .err else .ok acc
      | some data =>
        if dupHit acc data then .ok acc
        else iterGo pages last? startPage fuel (pageNum + 1) (acc ++ data)
    else .ok acc

/--
`iterateOverPagination` (constructor.js lines 210-244): start at
`pagination.first` (default 1) with an empty accumulator.
-/
def iterateOverPagination [DecidableEq α] (pages : Nat → Option (List α))
    (first? last? : Option Nat) (fuel : Nat) : IterOutcome α :=
  iterGo pages last? (first?.getD 1) fuel (first?.getD 1) []

/-- Concatenation of the callback results of pages `s, s+1, …, s+n-1`. -/
def pagesConcat (pages : Nat → Option (List α)) (s : Nat) : Nat → List α
  | 0 => []
  | n + 1 => pagesConcat pages s n ++ (pages (s + n)).getD []

theorem pagesConcat_cons (pages : Nat → Option (List α)) (s : Nat) :
    ∀ n, pagesConcat pages s (n + 1) =
      (pages s).getD [] ++ pagesConcat pages (s + 1) n := by
  intro n
  induction n with
  | zero => simp [pagesConcat]
  | succ m ih =>
    show pagesConcat pages s (m + 1) ++ (pages (s + (m + 1))).getD [] = _
    rw [ih, List.append_assoc]
    have harg : s + (m + 1) = (s + 1) + m := by omega
    rw [harg]
    rfl

theorem pagesConcat_length (pages : Nat → Option (List α)) (s : Nat) :
    ∀ n, (pagesConcat pages s n).length =
      Finset.sum (Finset.range n) (fun i => ((pages (s + i)).getD []).length) := by
  intro n
  induction n with
  | zero => simp [pagesConcat]
  | succ m ih =>
    show (pagesConcat pages s m ++ (pages (s + m)).getD []).length = _
    rw [List.length_append, ih, Finset.sum_range_succ]

/--
Advancing through `n` consecutive pages that all succeed without
triggering the duplicate check appends their results to the accumulator.
-/
theorem iterGo_run [DecidableEq α] (pages : Nat → Option (List α))
    (last? : Option Nat) (s : Nat) :
    ∀ n, (∀ i, i < n → contPage last? (s + i) = true ∧
      ∃ d, pages (s + i) = some d ∧ dupHit (pagesConcat pages s i) d = false) →
    ∀ fuel, iterGo pages last? s (fuel + n) s [] =
      iterGo pages last? s fuel (s + n) (pagesConcat pages s n) := by
  intro n
  induction n with
  | zero => intro _ fuel; rfl
  | succ m ih =>
    intro h fuel
    have hstep := ih (fun i hi => h i (by omega)) (fuel + 1)
    have harith : fuel + (m + 1) = (fuel + 1) + m := by omega
    rw [harith, hstep]
    obtain ⟨hcont, d, hd, hdup⟩ := h m (by omega)
    simp only [iterGo, hcont, if_pos, hd, hdup]
    rw [if_neg (by simp [hdup])]
    have harith2 : s + m + 1 = s + (m + 1) := by omega
    rw [harith2]
    have hcc : pagesConcat pages s (m + 1) = pagesConcat pages s m ++ d := by
      show pagesConcat pages s m ++ (pages (s + m)).getD [] = _
      rw [hd]
      rfl
    rw [hcc]

/--
C3: per-page extractor failure handling in `iterateOverPagination`.
If the callback fails on the first fetched page of the iteration the
failure propagates (`err`, never an empty `ok`); if it fails on a later
page (after `n ≥ 1` pages succeeded and were accumulated), the iteration
stops without error and returns exactly the elements accumulated from
all prior pages.
-/
theorem c3_extractor_failure [DecidableEq α] (pages : Nat → Option (List α))
    (first? last? : Option Nat) :
    (contPage last? (first?.getD 1) = true → pages (first?.getD 1) = none →
      ∀ fuel, iterateOverPagination pages first? last? (fuel + 1) = IterOutcome.err) ∧
    (∀ n, 1 ≤ n →
      (∀ i, i < n → contPage last? (first?.getD 1 + i) = true ∧
        ∃ d, pages (first?.getD 1 + i) = some d ∧
          dupHit (pagesConcat pages (first?.getD 1) i) d = false) →
      contPage last? (first?.getD 1 + n) = true →
      pages (first?.getD 1 + n) = none →
      ∀ fuel, iterateOverPagination pages first? last? (fuel + n + 1) =
        IterOutcome.ok (pagesConcat pages (first?.getD 1) n)) := by
  constructor
  · intro hcont hnone fuel
    unfold iterateOverPagination
    simp [iterGo, hcont, hnone]
  · intro n hn hrun hcont hnone fuel
    unfold iterateOverPagination
    have harith : fuel + n + 1 = (fuel + 1) + n := by omega
    rw [harith, iterGo_run pages last? (first?.getD 1) n hrun (fuel + 1)]
    simp only [iterGo, hcont, if_pos, hnone]
    rw [if_neg (by omega)]

/--
Witness for C3 at concrete inputs: with the callback failing on page 1
the failure propagates, and with page 1 returning `[10]` and page 2
failing the result is exactly `[10]`.
-/
theorem c3_extractor_failure_witness :
    iterateOverPagination (fun _ => (none : Option (List Nat))) none none 1 =
      IterOutcome.err ∧
    iterateOverPagination (fun k => if k = 1 then some [10] else none)
      none none 3 = IterOutcome.ok [10] := by
  constructor
  · exact (c3_extractor_failure (fun _ => (none : Option (List Nat))) none none).1
      rfl rfl 0
  · have h := (c3_extractor_failure (fun k => if k = 1 then some [10] else none)
      none none).2 1 (by omega)
      (by
        intro i hi
        have hi0 : i = 0 := by omega
        subst hi0
        exact ⟨rfl, [10], rfl, rfl⟩)
      rfl rfl 1
    have hconcat : pagesConcat (fun k => if k = 1 then some [10] else none)
        ((none : Option Nat).getD 1) 1 = [10] := by decide
    rw [hconcat] at h
    exact h

/--
C4: duplicate-page end-of-pagination detection.  When pages
`s, …, s+N-1` all succeed without triggering the duplicate check and page
`s+N` re-serves data whose first element equals an already-accumulated
element, the iteration stops without appending that page: the result is
exactly the concatenation of the first `N` pages' results and its length
is the sum of their lengths.
-/
theorem c4_duplicate_stop [DecidableEq α] (pages : Nat → Option (List α))
    (first? last? : Option Nat) (N : Nat) (d : List α) (x : α)
    (hrun : ∀ i, i < N → contPage last? (first?.getD 1 + i) = true ∧
      ∃ di, pages (first?.getD 1 + i) = some di ∧
        dupHit (pagesConcat pages (first?.getD 1) i) di = false)
    (hcont : contPage last? (first?.getD 1 + N) = true)
    (hpage : pages (first?.getD 1 + N) = some d)
    (hx : d.head? = some x)
    (hmem : x ∈ pagesConcat pages (first?.getD 1) N) :
    ∀ fuel, iterateOverPagination pages first? last? (fuel + N + 1) =
      IterOutcome.ok (pagesConcat pages (first?.getD 1) N) ∧
    (pagesConcat pages (first?.getD 1) N).length =
      Finset.sum (Finset.range N)
        (fun i => ((pages (first?.getD 1 + i)).getD []).length) := by
  intro fuel
  constructor
  · unfold iterateOverPagination
    have harith : fuel + N + 1 = (fuel + 1) + N := by omega
    rw [harith, iterGo_run pages last? (first?.getD 1) N hrun (fuel + 1)]
    have hdup : dupHit (pagesConcat pages (first?.getD 1) N) d = true := by
      unfold dupHit
      rw [hx]
      simpa using hmem
    simp only [iterGo, hcont, if_pos, hpage, hdup]
  · exact pagesConcat_length pages (first?.getD 1) N

/--
Witness for C4 at concrete inputs: page 1 yields `[10, 20]` and page 2
re-serves data starting with `10`, so the result is exactly `[10, 20]` of
length 2.
-/
theorem c4_duplicate_stop_witness :
    iterateOverPagination (fun k => if k = 1 then some [10, 20] else some [10, 99])
      none none 3 = IterOutcome.ok [10, 20] ∧
    ([10, 20] : List Nat).length = 2 := by
  have h := c4_duplicate_stop (fun k => if k = 1 then some [10, 20] else some [10, 99])
    none none 1 [10, 99] 10
    (by
      intro i hi
      have hi0 : i = 0 := by omega
      subst hi0
      exact ⟨rfl, [10, 20], rfl, rfl⟩)
    rfl rfl rfl (by decide) 1
  have hconcat : pagesConcat (fun k => if k = 1 then some [10, 20] else some [10, 99])
      ((none : Option Nat).getD 1) 1 = [10, 20] := by decide
  rw [hconcat] at h
  exact ⟨h.1, rfl⟩

/--
With an unbounded pagination whose callback returns an empty array from
page `p` onward, the loop spins forever: nothing is accumulated (the
duplicate check never fires on an empty result) and the page number grows
without bound.
-/
theorem iterGo_const_empty [DecidableEq α] (pages : Nat → Option (List α))
    (s : Nat) (acc : List α) :
    ∀ fuel p, (∀ k, p ≤ k → pages k = some []) →
      iterGo pages none s fuel p acc = IterOutcome.fuelOut acc (p + fuel) := by
  intro fuel
  induction fuel with
  | zero => intro p _; rfl
  | succ m ih =>
    intro p h
    have hp : pages p = some [] := h p (le_refl p)
    simp only [iterGo, contPage, if_pos, hp]
    rw [if_neg (by simp [dupHit])]
    rw [List.append_nil]
    rw [ih (p + 1) (fun k hk => h k (by omega))]
    have harith : p + 1 + m = p + (m + 1) := by omega
    rw [harith]

/--
If an unbounded (`last` absent) run terminates — normally or with an
error — within the given fuel, then some visited page either failed or
produced data whose first element was already in the accumulator at that
point.
-/
theorem iterGo_term_reason [DecidableEq α] (pages : Nat → Option (List α))
    (s : Nat) :
    ∀ fuel p acc,
      (∀ r q, iterGo pages none s fuel p acc ≠ IterOutcome.fuelOut r q) →
      ∃ k, p ≤ k ∧ (pages k = none ∨ ∃ d, pages k = some d ∧
        dupHit (acc ++ pagesConcat pages p (k - p)) d = true) := by
  intro fuel
  induction fuel with
  | zero =>
    intro p acc h
    exact absurd rfl (h acc p)
  | succ m ih =>
    intro p acc h
    cases hp : pages p with
    | none => exact ⟨p, le_refl p, Or.inl hp⟩
    | some d =>
      by_cases hdup : dupHit acc d = true
      · refine ⟨p, le_refl p, Or.inr ⟨d, hp, ?_⟩⟩
        show dupHit (acc ++ pagesConcat pages p (p - p)) d = true
        have hz : p - p = 0 := by omega
        rw [hz]
        show dupHit (acc ++ []) d = true
        rw [List.append_nil]
        exact hdup
      · have hnext : ∀ r q, iterGo pages none s m (p + 1) (acc ++ d) ≠
            IterOutcome.fuelOut r q := by
          intro r q hcontra
          apply h r q
          simp only [iterGo, contPage, if_pos, hp]
          rw [if_neg hdup]
          exact hcontra
        obtain ⟨k, hk, hcase⟩ := ih (p + 1) (acc ++ d) hnext
        refine ⟨k, by omega, ?_⟩
        cases hcase with
        | inl hnone => exact Or.inl hnone
        | inr hdup2 =>
          obtain ⟨d2, hd2, hdd⟩ := hdup2
          refine Or.inr ⟨d2, hd2, ?_⟩
          have harith : k - p = (k - (p + 1)) + 1 := by omega
          rw [harith, pagesConcat_cons, hp]
          show dupHit (acc ++ (d ++ pagesConcat pages (p + 1) (k - (p + 1)))) d2 = true
          rw [← List.append_assoc]
          exact hdd

/--
C10: pagination termination precondition.  When `pagination.last` is
absent: (1) if from the start page onward the callback always returns an
empty array without failing, the loop never terminates (for every fuel it
is still looping, with an empty accumulator and an ever-growing page
number); (2) if a run terminates at all — normally or with an error —
then some page's callback either failed or produced a result whose first
element was already among the accumulated elements.
-/
theorem c10_termination [DecidableEq α] (pages : Nat → Option (List α))
    (first? : Option Nat) :
    ((∀ k, first?.getD 1 ≤ k → pages k = some []) →
      ∀ fuel, iterateOverPagination pages first? none fuel =
        IterOutcome.fuelOut ([] : List α) (first?.getD 1 + fuel)) ∧
    (∀ fuel,
      (∀ r q, iterateOverPagination pages first? none fuel ≠ IterOutcome.fuelOut r q) →
      ∃ k, first?.getD 1 ≤ k ∧ (pages k = none ∨ ∃ d, pages k = some d ∧
        dupHit (pagesConcat pages (first?.getD 1) (k - first?.getD 1)) d = true)) := by
  constructor
  · intro h fuel
    exact iterGo_const_empty pages (first?.getD 1) [] fuel (first?.getD 1) h
  · intro fuel h
    obtain ⟨k, hk, hcase⟩ := iterGo_term_reason pages (first?.getD 1) fuel
      (first?.getD 1) [] h
    refine ⟨k, hk, ?_⟩
    cases hcase with
    | inl hnone => exact Or.inl hnone
    | inr hdup =>
      obtain ⟨d, hd, hdd⟩ := hdup
      refine Or.inr ⟨d, hd, ?_⟩
      rw [List.nil_append] at hdd
      exact hdd

/--
Witness for C10 at concrete inputs: a pagination whose callback always
returns `[]` is still looping after 5 steps with an empty accumulator,
and a run that terminated (here because page 1 failed) exhibits a failing
or duplicated page.
-/
theorem c10_termination_witness :
    iterateOverPagination (fun _ => some ([] : List Nat)) none none 5 =
      IterOutcome.fuelOut ([] : List Nat) 6 ∧
    ∃ k, 1 ≤ k ∧ ((fun _ => (none : Option (List Nat))) k = none ∨
      ∃ d, (fun _ => (none : Option (List Nat))) k = some d ∧
        dupHit (pagesConcat (fun _ => (none : Option (List Nat))) 1 (k - 1)) d = true) := by
  constructor
  · exact (c10_termination (fun _ => some ([] : List Nat)) none).1
      (fun _ _ => rfl) 5
  · exact (c10_termination (fun _ => (none : Option (List Nat))) none).2 1
      (by
        intro r q hcontra
        exact IterOutcome.noConfusion hcontra)


/-! ## Fuzzy product matching (src/lib/fuse-product.js) -/

/--
Exact rational subtraction, written with `mkRat` so that it is
kernel-computable (the library subtraction on `Rat` is irreducible);
`ratSub_eq_sub` below proves it agrees with the library subtraction, so
using it in the embedding of `assessRelevance` changes nothing.
-/
def ratSub (a b : Rat) : Rat :=
  mkRat (a.num * b.den - b.num * a.den) (a.den * b.den)

theorem ratSub_eq_sub (a b : Rat) : ratSub a b = a - b :=
  (Rat.sub_def' a b).symm

/-- The constant 0.5 assigned to `fieldNormWeight` on the relevance-2
re-rank path, written with `mkRat` so that it is kernel-computable. -/
def halfWeight : Rat := mkRat 1 2

theorem halfWeight_eq : halfWeight = 1 / 2 := by
  unfold halfWeight
  rw [Rat.mkRat_eq_divInt, Rat.divInt_eq_div]
  norm_num

/-- Characters stripped by the first regex of `normalize` (fuse-product.js line 34). -/
def punctChars : List Char :=
  [Char.ofNat 123, Char.ofNat 125, Char.ofNat 91, Char.ofNat 93, Char.ofNat 40,
   Char.ofNat 41, Char.ofNat 46, Char.ofNat 44, Char.ofNat 43, Char.ofNat 45]

/-- Whitespace characters, modelling the JS regex class `\s`. -/
def isWs (c : Char) : Bool :=
  c = Char.ofNat 32 ∨ c = Char.ofNat 9 ∨ c = Char.ofNat 10 ∨ c = Char.ofNat 13

/-- Separator class of the second regex of `normalize`: `[\s/|\\]`. -/
def isSep (c : Char) : Bool :=
  isWs c ∨ c = Char.ofNat 47 ∨ c = Char.ofNat 124 ∨ c = Char.ofNat 92

/-- The space character. -/
def spaceChar : Char := Char.ofNat 32

/-- The apostrophe character used by the extended-search query syntax. -/
def aposChar : Char := Char.ofNat 39

/-- Replace each maximal run of separator characters by a single space. -/
def collapseSeps : Bool → List Char → List Char
  | _, [] => []
  | prevSep, c :: cs =>
    if isSep c then
      if prevSep then collapseSeps true cs
      else spaceChar :: collapseSeps true cs
    else c :: collapseSeps false cs

/--
`normalize` (fuse-product.js lines 33-35): strip the fixed punctuation
set, then collapse separator runs to single spaces.
-/
def normalize (s : List Char) : List Char :=
  collapseSeps false (s.filter (fun c => !(punctChars.contains c)))

/--
Replace the first whitespace character by space-apostrophe, modelling
`name.replace(/\s/, " '")` (fuse-product.js line 92, non-global regex).
-/
def quoteFirstWs : List Char → List Char
  | [] => []
  | c :: cs =>
    if isWs c then spaceChar :: aposChar :: cs
    else c :: quoteFirstWs cs

/-- Replace every whitespace character, modelling `brand.replace(/\s/g, " '")`. -/
def quoteAllWs : List Char → List Char
  | [] => []
  | c :: cs =>
    if isWs c then spaceChar :: aposChar :: quoteAllWs cs
    else c :: quoteAllWs cs

/--
Brand-qualified extended-search query (fuse-product.js line 92):
`" '" + name.replace(/\s/, " '") + " '" + brand.replace(/\s/g, " '")`.
-/
def brandQuery (name brand : List Char) : List Char :=
  [spaceChar, aposChar] ++ quoteFirstWs name ++ [spaceChar, aposChar] ++ quoteAllWs brand

/-- One Fuse.js search hit: a score (lower = more similar) and the index of the matched name. -/
structure FuseHit where
  score : Rat
  refIndex : Nat
deriving DecidableEq, Repr

/-- The two-threshold-plus-difference triple used to classify the top hit. -/
structure FuseThresholds where
  firstScore : Rat
  firstScoreWarning : Rat
  difference : Rat
deriving DecidableEq, Repr

/--
`assessRelevance` (fuse-product.js lines 48-64).  `none` models the
runtime failure of reading `results[0].score` on an empty list (callers
only invoke it on non-empty lists); `ratSub` is exact rational
subtraction (see `ratSub_eq_sub`).
-/
def assessRelevance : List FuseHit → FuseThresholds → Option Nat
  | [], _ => none
  | first :: rest, th =>
    if th.firstScore ≤ first.score then some 0
    else if th.firstScoreWarning ≤ first.score then some 1
    else
      match rest with
      | second :: _ =>
        if ratSub second.score first.score < th.difference then some 2 else some 3
      | [] => some 3

/-- The `{index, relevance}` pair returned by `fuseSearchProduct`. -/
structure FuseResult where
  index : Nat
  relevance : Nat
deriving DecidableEq, Repr

/--
Outcome of `fuseSearchProduct` together with the module-level
`FUSE_DEFAULT_OPTIONS.fieldNormWeight` value after the call (the JS code
aliases and mutates that shared object, so the value persists into
subsequent calls).  `err` models the thrown `Fuse.js cannot find …`
error and the crash on an empty re-ranked result.
-/
inductive FuseOutcome where
  | ok (res : FuseResult) (state : Rat)
  | err
deriving DecidableEq, Repr

/-- Basic info identifying a product (`{ name, brand?, url? }`). -/
structure BasicInfo where
  name : List Char
  brand : Option (List Char)
  url : Option (List Char)
deriving DecidableEq, Repr

/--
Classification-and-ranking tail of `fuseSearchProduct` (fuse-product.js
lines 108-121): assess the relevance of the chosen result list and, on
relevance 2, re-run the search with `fieldNormWeight = 0.5` (mutating the
shared options object, hence the returned state) and take the re-ranked
top index.
-/
def fuseRank (engine : Rat → List (List Char) → List Char → List FuseHit)
    (fnw : Rat) (names : List (List Char)) (query : List Char)
    (result : List FuseHit) (th : FuseThresholds) : FuseOutcome :=
  match assessRelevance result th with
  | none => .err
  | some relevance =>
    if relevance = 2 then
      match (engine halfWeight names query).head? with
      | some h => .ok ⟨h.refIndex, relevance⟩ halfWeight
      | none => .err
    else
      match result.head? with
      | some h => .ok ⟨h.refIndex, relevance⟩ fnw
      | none => .err

/--
`fuseSearchProduct` (fuse-product.js lines 79-122).  `engine w names q`
models `new Fuse(names, {…, fieldNormWeight: w}).search(q)`; `fnw` is the
shared `FUSE_DEFAULT_OPTIONS.fieldNormWeight` value at call time.  The
brand-qualified search runs only when `basicInfo.brand` is JS-truthy
(present and non-empty); if it yields no hits the search falls back to
the normalized name with the brandless thresholds, and an empty fallback
result throws.
-/
def fuseSearchProduct (engine : Rat → List (List Char) → List Char → List FuseHit)
    (fnw : Rat) (bi : BasicInfo) (productNames : List (List Char))
    (optBrand optBrandless : FuseThresholds) : FuseOutcome :=
  let name := normalize bi.name
  let names := productNames.map normalize
  let brandRaw := bi.brand.getD []
  let brandResult :=
    if brandRaw ≠ [] then engine fnw names (brandQuery name (normalize brandRaw))
    else []
  if brandResult ≠ [] then
    fuseRank engine fnw names (brandQuery name (normalize brandRaw)) brandResult optBrand
  else
    let nameResult := engine fnw names name
    if nameResult = [] then .err
    else fuseRank engine fnw names name nameResult optBrandless

/--
C6: relevance classification threshold boundary.  For every non-empty
result list and threshold triple: a top score greater than or equal to
`firstScoreThreshold` classifies as relevance 0; in particular a top
score exactly equal to it classifies as 0; and a top score below it but
greater than or equal to `firstScoreWarningThreshold` classifies as 1.
-/
theorem c6_relevance_boundary (first : FuseHit) (rest : List FuseHit)
    (th : FuseThresholds) :
    (th.firstScore ≤ first.score →
      assessRelevance (first :: rest) th = some 0) ∧
    (first.score = th.firstScore →
      assessRelevance (first :: rest) th = some 0) ∧
    (first.score < th.firstScore → th.firstScoreWarning ≤ first.score →
      assessRelevance (first :: rest) th = some 1) := by
  refine ⟨?_, ?_, ?_⟩
  · intro h
    simp only [assessRelevance]
    rw [if_pos h]
  · intro h
    simp only [assessRelevance]
    rw [if_pos (le_of_eq h.symm)]
  · intro h1 h2
    simp only [assessRelevance]
    rw [if_neg (not_le.mpr h1), if_pos h2]

/--
Witness for C6 at concrete inputs, using the default thresholds
`{0.19, 0.11, 0.03}`: a top score of exactly 0.19 classifies as 0 and a
top score of 0.11 classifies as 1.
-/
theorem c6_relevance_boundary_witness :
    assessRelevance [⟨mkRat 19 100, 0⟩] ⟨mkRat 19 100, mkRat 11 100, mkRat 3 100⟩ =
      some 0 ∧
    assessRelevance [⟨mkRat 11 100, 0⟩] ⟨mkRat 19 100, mkRat 11 100, mkRat 3 100⟩ =
      some 1 := by
  constructor
  · exact (c6_relevance_boundary ⟨mkRat 19 100, 0⟩ []
      ⟨mkRat 19 100, mkRat 11 100, mkRat 3 100⟩).2.1 rfl
  · exact (c6_relevance_boundary ⟨mkRat 11 100, 0⟩ []
      ⟨mkRat 19 100, mkRat 11 100, mkRat 3 100⟩).2.2 (by decide) (le_refl _)

/--
C7: brandless fallback order.  If the brand-qualified search yields zero
hits (or the brand is absent/empty, hence JS-falsy), the search is re-run
by the normalized name alone: an empty name-only result makes
`fuseSearchProduct` fail, and a non-empty one is classified against the
brandless threshold set (the call reduces to the classification tail
`fuseRank` applied with the name query and `optBrandless`).
-/
theorem c7_brandless_fallback
    (engine : Rat → List (List Char) → List Char → List FuseHit) (fnw : Rat)
    (bi : BasicInfo) (productNames : List (List Char))
    (optBrand optBrandless : FuseThresholds)
    (hb : bi.brand.getD [] = [] ∨
      engine fnw (productNames.map normalize)
        (brandQuery (normalize bi.name) (normalize (bi.brand.getD []))) = []) :
    (engine fnw (productNames.map normalize) (normalize bi.name) = [] →
      fuseSearchProduct engine fnw bi productNames optBrand optBrandless =
        FuseOutcome.err) ∧
    (engine fnw (productNames.map normalize) (normalize bi.name) ≠ [] →
      fuseSearchProduct engine fnw bi productNames optBrand optBrandless =
        fuseRank engine fnw (productNames.map normalize) (normalize bi.name)
          (engine fnw (productNames.map normalize) (normalize bi.name))
          optBrandless) := by
  have hbrandRes :
      (if bi.brand.getD [] ≠ [] then
        engine fnw (productNames.map normalize)
          (brandQuery (normalize bi.name) (normalize (bi.brand.getD [])))
      else []) = [] := by
    cases hb with
    | inl h => rw [if_neg (by simp [h])]
    | inr h =>
      by_cases hcase : bi.brand.getD [] ≠ []
      · rw [if_pos hcase]; exact h
      · rw [if_neg hcase]
  constructor
  · intro hname
    simp only [fuseSearchProduct]
    rw [hbrandRes]
    rw [if_neg (by simp), if_pos hname]
  · intro hname
    simp only [fuseSearchProduct]
    rw [hbrandRes]
    rw [if_neg (by simp), if_neg hname]

/-- Concrete Fuse engine used in the C5/C7 scenarios.  Its rankings depend
on the `fieldNormWeight` parameter, as Fuse.js rankings do. -/
def cEngine : Rat → List (List Char) → List Char → List FuseHit :=
  fun w _ q =>
    if q = ['a'] then
      if w = 0 then [⟨mkRat 1 100, 0⟩, ⟨mkRat 2 100, 1⟩] else [⟨mkRat 1 100, 0⟩]
    else if q = ['b'] then
      if w = 0 then [⟨mkRat 1 100, 0⟩] else [⟨mkRat 1 100, 1⟩]
    else []

/-- Default thresholds `{firstScore: 0.19, firstScoreWarning: 0.11, difference: 0.03}`. -/
def cThresholds : FuseThresholds := ⟨mkRat 19 100, mkRat 11 100, mkRat 3 100⟩

/-- Brandless basic info with name "a". -/
def cBiA : BasicInfo := ⟨['a'], none, none⟩

/-- Brandless basic info with name "b". -/
def cBiB : BasicInfo := ⟨['b'], none, none⟩

/-- Candidate names used in the C5/C7 scenarios. -/
def cNames : List (List Char) := [['x'], ['y']]

/--
Witness for C7 at concrete inputs: with no brand and a non-empty
name-only search, the call reduces to the brandless classification tail;
and with an engine that never finds anything, the call fails.
-/
theorem c7_brandless_fallback_witness :
    fuseSearchProduct cEngine 0 cBiA cNames cThresholds cThresholds =
      fuseRank cEngine 0 (cNames.map normalize) (normalize cBiA.name)
        (cEngine 0 (cNames.map normalize) (normalize cBiA.name)) cThresholds ∧
    fuseSearchProduct (fun _ _ _ => []) 0 cBiA cNames cThresholds cThresholds =
      FuseOutcome.err := by
  constructor
  · exact (c7_brandless_fallback cEngine 0 cBiA cNames cThresholds cThresholds
      (Or.inl rfl)).2 (by decide)
  · exact (c7_brandless_fallback (fun _ _ _ => []) 0 cBiA cNames cThresholds
      cThresholds (Or.inl rfl)).1 rfl

/--
C5 counterexample: `fuseSearchProduct` is not history-free.  A call on
`cBiA` takes the relevance-2 re-rank path and leaves the shared
`fieldNormWeight` at 0.5; a subsequent call on `cBiB` then returns a
different `{index, relevance}` than the same call would have returned
with the initial weight 0 (index 1 instead of index 0).
-/
theorem c5_counterexample :
    fuseSearchProduct cEngine 0 cBiA cNames cThresholds cThresholds =
      FuseOutcome.ok ⟨0, 2⟩ halfWeight ∧
    fuseSearchProduct cEngine halfWeight cBiB cNames cThresholds cThresholds ≠
      fuseSearchProduct cEngine 0 cBiB cNames cThresholds cThresholds := by
  decide

/--
C5 amended: `fuseSearchProduct` is deterministic only relative to the
shared mutable options state.  Two invocations with identical arguments
and the same incoming `fieldNormWeight` return the same result (the
embedding is a pure function of that state), and a successful call leaves
the shared `fieldNormWeight` at 0.5 exactly when it classified relevance
2 — which persists into and can change subsequent calls — and unchanged
otherwise.
-/
theorem c5_state_evolution
    (engine : Rat → List (List Char) → List Char → List FuseHit) (fnw : Rat)
    (bi : BasicInfo) (productNames : List (List Char))
    (optBrand optBrandless : FuseThresholds) (res : FuseResult) (st : Rat)
    (h : fuseSearchProduct engine fnw bi productNames optBrand optBrandless =
      FuseOutcome.ok res st) :
    (res.relevance = 2 → st = halfWeight) ∧ (res.relevance ≠ 2 → st = fnw) := by
  have hrank : ∀ (names : List (List Char)) (query : List Char)
      (result : List FuseHit) (th : FuseThresholds),
      fuseRank engine fnw names query result th = FuseOutcome.ok res st →
      (res.relevance = 2 → st = halfWeight) ∧ (res.relevance ≠ 2 → st = fnw) := by
    intro names query result th hr
    unfold fuseRank at hr
    split at hr
    · exact FuseOutcome.noConfusion hr
    · rename_i relevance hass
      split at hr
      · rename_i hrel
        split at hr
        · rename_i hit hhead
          simp only [FuseOutcome.ok.injEq] at hr
          obtain ⟨hres, hst⟩ := hr
          constructor
          · intro _
            exact hst.symm
          · intro hne
            exact absurd (by rw [← hres]; exact hrel) hne
        · exact FuseOutcome.noConfusion hr
      · rename_i hrel
        split at hr
        · rename_i hit hhead
          simp only [FuseOutcome.ok.injEq] at hr
          obtain ⟨hres, hst⟩ := hr
          constructor
          · intro h2
            exact absurd (by rw [← hres] at h2; exact h2) hrel
          · intro _
            exact hst.symm
        · exact FuseOutcome.noConfusion hr
  simp only [fuseSearchProduct] at h
  repeat' split at h
  all_goals first
  | exact hrank _ _ _ _ h
  | exact FuseOutcome.noConfusion h

/--
Witness for C5's amended statement at a concrete input: the relevance-2
call on `cBiA` returns the persisting state 0.5.
-/
theorem c5_state_evolution_witness :
    ((⟨0, 2⟩ : FuseResult).relevance = 2 → halfWeight = halfWeight) ∧
    ((⟨0, 2⟩ : FuseResult).relevance ≠ 2 → halfWeight = 0) :=
  c5_state_evolution cEngine 0 cBiA cNames cThresholds cThresholds ⟨0, 2⟩ halfWeight
    (by decide)

/-! ## Product resolution (src/lib/search.js, `searchProduct`) -/

/--
Outcome of `searchProduct`.  The error constructors model the distinct
thrown errors: `errExtract` is a first-page extraction failure propagated
out of `iterateOverPagination`, `errSearchEngine` is
`Search engine on the website does not work` (zero candidates),
`errFuse` is the error thrown inside `fuseSearchProduct`, and
`errNoMatch` is `No products close enough were found` (relevance 0).
`fuelOut` records a pagination run still looping after the given fuel.
-/
inductive SearchOutcome where
  | ok (url : List Char)
  | errExtract
  | errSearchEngine
  | errFuse
  | errNoMatch
  | fuelOut
deriving DecidableEq, Repr

/--
`searchProduct` (search.js lines 76-101).  If `basicInfo.url` is JS-truthy
(present and non-empty) it is returned unchanged before any fetch.
Otherwise the query is narrowed with `getOptimalForSearchSubstring`
(oracle `has`), the search pagination for the narrowed substring is
iterated (`pages substr pageNum` models fetching
`search[0] + substr + search[1] + pageNum` and extracting the basic-info
list; `none` = the extraction threw), and the fuzzy matcher picks the
index whose URL is returned.
-/
def searchProduct (has : List Char → Bool)
    (pages : List Char → Nat → Option (List BasicInfo))
    (engine : Rat → List (List Char) → List Char → List FuseHit)
    (fnw : Rat) (optBrand optBrandless : FuseThresholds) (fuel : Nat)
    (bi : BasicInfo) : SearchOutcome :=
  if bi.url.getD [] ≠ [] then .ok (bi.url.getD [])
  else
    match iterGo (pages (getOptimalForSearchSubstring has bi.name)) none 1 fuel 1 [] with
    | .fuelOut _ _ => .fuelOut
    | .err => .errExtract
    | .ok basicInfoList =>
      if basicInfoList.length = 0 then .errSearchEngine
      else
        match fuseSearchProduct engine fnw bi (basicInfoList.map (fun b => b.name))
            optBrand optBrandless with
        | .err => .errFuse
        | .ok res _ =>
          if res.relevance = 0 then .errNoMatch
          else .ok ((basicInfoList.getD res.index ⟨[], none, none⟩).url.getD [])

/--
C8: URL short-circuit in product resolution.  For every basic info whose
`url` field is present (non-empty, hence JS-truthy) — argument validation
always passes in the typed embedding — `searchProduct` returns the URL
unchanged; the statement quantifies over the search oracle, the
pagination contents and the fuse engine, so no fetch result influences
the outcome, and over `name` and `brand`, so those fields do not either.
-/
theorem c8_url_short_circuit (has : List Char → Bool)
    (pages : List Char → Nat → Option (List BasicInfo))
    (engine : Rat → List (List Char) → List Char → List FuseHit)
    (fnw : Rat) (optBrand optBrandless : FuseThresholds) (fuel : Nat)
    (name : List Char) (brand : Option (List Char)) (u : List Char)
    (hu : u ≠ []) :
    searchProduct has pages engine fnw optBrand optBrandless fuel
      ⟨name, brand, some u⟩ = SearchOutcome.ok u := by
  unfold searchProduct
  rw [if_pos (show ((⟨name, brand, some u⟩ : BasicInfo).url.getD []) ≠ [] from hu)]
  rfl

/--
Witness for C8 at concrete inputs: a basic info with url "u" resolves to
"u" under arbitrary concrete oracles.
-/
theorem c8_url_short_circuit_witness :
    searchProduct (fun _ => true) (fun _ _ => none) cEngine 0 cThresholds
      cThresholds 0 ⟨['n'], none, some ['u']⟩ = SearchOutcome.ok ['u'] :=
  c8_url_short_circuit (fun _ => true) (fun _ _ => none) cEngine 0 cThresholds
    cThresholds 0 ['n'] none ['u'] (by decide)

/-! ## Card filtering (src/lib/filter.js, `filterProductCardsFromPage`) -/

/--
Configuration slice used by `filterProductCardsFromPage`.  The
constructor defaults every selector and placeholder to the empty string,
and the JS code tests them for truthiness, so `""` means "unconfigured".
-/
structure FilterConfig where
  imagesSelector : String
  descriptionsSelector : String
  imagePlaceholder : String
  descriptionPlaceholder : String
deriving DecidableEq, Repr

/--
Presence-signal computation of `filterProductCardsFromPage` (filter.js
lines 71-96) for one of the two signal kinds: when the selector and the
placeholder are both configured, the extracted values must be as many as
the cards (otherwise the `Invalid selection` error is thrown) and the
signal at `i` is `vals[i] !== placeholder`; otherwise every signal is
`false`.
-/
def presenceSignals (configured : Bool) (vals : List String)
    (placeholder : String) (n : Nat) : Except Unit (List Bool) :=
  if configured then
    if vals.length = n then Except.ok (vals.map (fun v => v != placeholder))
    else Except.error ()
  else Except.ok (List.replicate n false)

/--
Index-aware filter, modelling `data.filter((_, i) => p(i))` (filter.js
line 98).
-/
def filterWithIndex (p : Nat → Bool) : Nat → List α → List α
  | _, [] => []
  | i, a :: as =>
    if p i then a :: filterWithIndex p (i + 1) as
    else filterWithIndex p (i + 1) as

/--
`filterProductCardsFromPage` (filter.js lines 64-99).  `data` is the
result of `callback.call(thisArg, $)`, `imgUrls` and `descriptions` the
results of the configured list extractions; image signals are computed
(and their cardinality checked) before description signals, matching the
order of the two `if` blocks in the source.
-/
def filterProductCardsFromPage (cfg : FilterConfig) (data : List α)
    (imgUrls descriptions : List String) (f : Bool → Bool → Bool) :
    Except Unit (List α) :=
  match presenceSignals (cfg.imagesSelector != "" && cfg.imagePlaceholder != "")
      imgUrls cfg.imagePlaceholder data.length,
    presenceSignals (cfg.descriptionsSelector != "" && cfg.descriptionPlaceholder != "")
      descriptions cfg.descriptionPlaceholder data.length with
  | Except.ok imgExist, Except.ok desExist =>
    Except.ok (filterWithIndex
      (fun i => f (imgExist.getD i false) (desExist.getD i false)) 0 data)
  | Except.error e, _ => Except.error e
  | Except.ok _, Except.error e => Except.error e

/--
Image-presence signal as the specification states it: the signal at `i`
is `imageUrls[i] !== configuredImagePlaceholder`, and it is false for
every card whenever the image selector or the image placeholder is
unconfigured.  The description signal is the same with the description
selector, extraction and placeholder.
-/
def cardSignalSpec (selector : String) (vals : List String)
    (placeholder : String) (i : Nat) : Bool :=
  (selector != "" && placeholder != "") && (vals.getD i "" != placeholder)

theorem getD_replicate_false : ∀ (n i : Nat),
    (List.replicate n false).getD i false = false := by
  intro n
  induction n with
  | zero => intro i; cases i <;> rfl
  | succ m ih =>
    intro i
    cases i with
    | zero => rfl
    | succ j => exact ih j

theorem getD_map_bool (g : String → Bool) : ∀ (l : List String) (i : Nat), i < l.length →
    (l.map g).getD i false = g (l.getD i "") := by
  intro l
  induction l with
  | nil => intro i hi; exact absurd hi (by simp)
  | cons a as ih =>
    intro i hi
    cases i with
    | zero => rfl
    | succ j => exact ih j (by simpa using hi)

theorem filterWithIndex_congr (p q : Nat → Bool) :
    ∀ (data : List α) (i : Nat), (∀ j, i ≤ j → j < i + data.length → p j = q j) →
      filterWithIndex p i data = filterWithIndex q i data := by
  intro data
  induction data with
  | nil => intro i _; rfl
  | cons a as ih =>
    intro i h
    simp only [filterWithIndex]
    rw [h i (le_refl i) (by simp)]
    rw [ih (i + 1) (fun j hj1 hj2 => h j (by omega) (by simp at hj2 ⊢; omega))]

theorem presenceSignals_ok (c : Bool) (vals : List String) (placeholder : String)
    (n : Nat) (h : c = true → vals.length = n) :
    ∃ ex, presenceSignals c vals placeholder n = Except.ok ex ∧
      ∀ j, j < n → ex.getD j false = (c && (vals.getD j "" != placeholder)) := by
  cases c with
  | false =>
    refine ⟨List.replicate n false, rfl, ?_⟩
    intro j _
    rw [getD_replicate_false]
    rfl
  | true =>
    have hlen : vals.length = n := h rfl
    refine ⟨vals.map (fun v => v != placeholder), ?_, ?_⟩
    · unfold presenceSignals
      rw [if_pos rfl, if_pos hlen]
    · intro j hj
      rw [getD_map_bool (fun v => v != placeholder) vals j (by omega)]
      rfl

/--
C9: card filtering is an exact order-preserving predicate filter.  If the
configured image extraction (respectively description extraction) has as
many entries as the card list, then `filterProductCardsFromPage` succeeds
and returns exactly the cards whose index-wise presence signals — as the
specification defines them (`cardSignalSpec`) — satisfy the predicate, in
original order.
-/
theorem c9_card_filter (cfg : FilterConfig) (data : List α)
    (imgUrls descriptions : List String) (f : Bool → Bool → Bool)
    (himg : (cfg.imagesSelector != "" && cfg.imagePlaceholder != "") = true →
      imgUrls.length = data.length)
    (hdes : (cfg.descriptionsSelector != "" && cfg.descriptionPlaceholder != "") = true →
      descriptions.length = data.length) :
    filterProductCardsFromPage cfg data imgUrls descriptions f =
      Except.ok (filterWithIndex
        (fun i => f (cardSignalSpec cfg.imagesSelector imgUrls cfg.imagePlaceholder i)
          (cardSignalSpec cfg.descriptionsSelector descriptions
            cfg.descriptionPlaceholder i)) 0 data) := by
  obtain ⟨imgExist, himgEq, himgAt⟩ :=
    presenceSignals_ok (cfg.imagesSelector != "" && cfg.imagePlaceholder != "")
      imgUrls cfg.imagePlaceholder data.length himg
  obtain ⟨desExist, hdesEq, hdesAt⟩ :=
    presenceSignals_ok (cfg.descriptionsSelector != "" && cfg.descriptionPlaceholder != "")
      descriptions cfg.descriptionPlaceholder data.length hdes
  unfold filterProductCardsFromPage
  rw [himgEq, hdesEq]
  refine congrArg Except.ok ?_
  apply filterWithIndex_congr
  intro j _ hj2
  rw [himgAt j (by omega), hdesAt j (by omega)]
  rfl

/--
Witness for C9 at the concrete inputs of the specification's example:
four cards, images `[real, placeholder, real, placeholder]` and
descriptions `[text, text, "Lorem", "Lorem"]` against placeholders
`"placeholder"` and `"Lorem"`; the predicate "no image and no
description" keeps exactly the fourth card.
-/
theorem c9_card_filter_witness :
    filterProductCardsFromPage
      ⟨"img", "des", "placeholder", "Lorem"⟩
      ["first-url", "second-url", "third-url", "fourth-url"]
      ["real1", "placeholder", "real3", "placeholder"]
      ["text1", "text2", "Lorem", "Lorem"]
      (fun x y => !x && !y) = Except.ok ["fourth-url"] := by
  have h := c9_card_filter ⟨"img", "des", "placeholder", "Lorem"⟩
    ["first-url", "second-url", "third-url", "fourth-url"]
    ["real1", "placeholder", "real3", "placeholder"]
    ["text1", "text2", "Lorem", "Lorem"]
    (fun x y => !x && !y) (fun _ => rfl) (fun _ => rfl)
  rw [h]
  rfl

end Scraper
